import Mathlib

/-!
# Booking-conflict and pricing engine of the `bnbbackend` repository

A shallow embedding of the pure logic of `src/controllers/bookingsController.js`,
the availability controller, and `validatePromoCode` of
`src/controllers/promoCodesController.js`.

Modelling conventions:
* JavaScript `Date` instants are `Int` values (milliseconds since the epoch);
  every comparison the source performs on dates is numeric.
* Money amounts, rates and fractional hour durations are `ℚ` (the source
  computes with JS numbers; all expressions involved are field operations,
  `Math.min`, `Math.max` and `Math.ceil`, which we take over the rationals).
* Mongo query filters become decidable predicates over an explicit list of
  stored documents; `findOne` becomes `List.find?`.
* Authorization checks, `populate` projections and persistence round-trips
  carry no information the verified properties depend on and are left out.
-/

namespace BnbBackend

/-- Booking status enum of the Booking schema (`models/Booking.js`). -/
inductive BookingStatus where
  | pending
  | confirmed
  | active
  | completed
  | cancelled
  | no_show
  deriving DecidableEq, Repr

/-- The statuses `hasBookingConflict` excludes with `$nin`
(`bookingsController.js` line 27), also the statuses `cancelBooking`
refuses to cancel (line 500). -/
def terminalStatuses : List BookingStatus :=
  [.cancelled, .completed, .no_show]

/-- One recorded extension of a booking (`extendBooking`, lines 781-786). -/
structure BookingExtension where
  old_end_time : Int
  new_end_time : Int
  extension_price : ℚ
  extended_at : Int
  deriving DecidableEq, Repr

/-- A stored booking document.  The first block of fields is declared in the
Booking schema (`models/Booking.js` lines 90-193); the second block holds the
fields the controllers write even though the schema does not declare them
(`total_price`, `final_price`, `overtime_charge`, `extensions`,
`refund_amount`, actual start/end), plus the optional check-in verification
code the check-in handler consults. -/
structure Booking where
  _id : Nat
  space_id : Nat
  start_time : Int
  end_time : Int
  duration_hours : ℚ
  base_price : ℚ
  discount_amount : ℚ
  total_amount : ℚ
  status : BookingStatus
  cancellation_reason : Option String
  -- fields used by the controllers but absent from the schema's declaration
  total_price : ℚ
  final_price : ℚ
  overtime_charge : ℚ
  refund_amount : ℚ
  extensions : List BookingExtension
  verification_code : Option String
  actual_start_time : Option Int
  actual_end_time : Option Int
  cancelled_at : Option Int
  deriving DecidableEq, Repr

/-- The field names the Booking schema declares (`models/Booking.js`
lines 90-193, timestamps expand to `created_at`/`updated_at`). -/
def bookingSchemaFields : List String :=
  ["booking_number", "user_id", "owner_id", "space_id", "vehicle_id",
   "start_time", "end_time", "duration_hours", "base_price",
   "discount_amount", "total_amount", "currency", "status",
   "payment_status", "check_in_time", "check_out_time",
   "cancellation_reason", "created_at", "updated_at"]

/-- Rate card slice of a parking space (`models/ParkingSpace.js`):
the price tiers and the listing status `createBooking` checks. -/
structure ParkingSpace where
  hourly_rate : ℚ
  daily_rate : ℚ
  monthly_rate : ℚ
  status : String
  deriving DecidableEq, Repr

/-- Error kinds of `utils/errorCodes`, as far as the embedded handlers
distinguish them. -/
inductive ErrCode where
  | reqValidation
  | bizValidation
  | notFound
  | authForbidden
  | bizConflict
  | bizOperationNotAllowed
  | bizUnavailable
  deriving DecidableEq, Repr

/-- One hour in milliseconds (`1000 * 60 * 60`, as the source writes it). -/
def msPerHour : Int := 1000 * 60 * 60

/-- The Mongo filter of `hasBookingConflict` (`bookingsController.js`
lines 24-33) applied to one stored booking: same space, status not in
`['cancelled','completed','no_show']`, and the `$or` of the three interval
disjuncts, written exactly as the query does. -/
def ConflictFilter (spaceId : Nat) (startTime endTime : Int) (b : Booking) : Prop :=
  b.space_id = spaceId ∧
  b.status ∉ terminalStatuses ∧
  ((b.start_time ≤ startTime ∧ b.end_time > startTime) ∨
   (b.start_time < endTime ∧ b.end_time ≥ endTime) ∨
   (b.start_time ≥ startTime ∧ b.end_time ≤ endTime))

instance (spaceId : Nat) (startTime endTime : Int) (b : Booking) :
    Decidable (ConflictFilter spaceId startTime endTime b) := by
  unfold ConflictFilter; infer_instance

/-- Embedding of `hasBookingConflict` (`bookingsController.js` lines 24-41): first stored
booking matching the filter, optionally excluding one `_id`. -/
def hasBookingConflict (bookings : List Booking) (spaceId : Nat)
    (startTime endTime : Int) (excludeBookingId : Option Nat) : Option Booking :=
  bookings.find? fun b =>
    decide (ConflictFilter spaceId startTime endTime b) &&
    (match excludeBookingId with
     | some i => b._id != i
     | none => true)

/-- Embedding of `calculateBookingPrice` (`bookingsController.js` lines 46-60):
tiered pricing over fractional hours. -/
def calculateBookingPrice (parkingSpace : ParkingSpace) (durationHours : ℚ) : ℚ :=
  if durationHours ≤ 24 then
    parkingSpace.hourly_rate * durationHours
  else if durationHours ≤ 24 * 30 then
    parkingSpace.daily_rate * (⌈durationHours / 24⌉ : ℤ)
  else
    parkingSpace.monthly_rate * (⌈durationHours / (24 * 30)⌉ : ℤ)

/-- The refund policy block of `cancelBooking` (lines 505-528): 0 once the
booking has started (`now >= start_time`), otherwise 100 / 50 / 0 by the
hours until start. -/
def cancelRefundPercentage (startTime now : Int) : ℚ :=
  if startTime ≤ now then 0
  else
    let hoursUntilStart : ℚ := ((startTime - now : ℤ) : ℚ) / (1000 * 60 * 60)
    if hoursUntilStart > 48 then 100
    else if hoursUntilStart > 24 then 50
    else 0

/-- Embedding of `cancelBooking` (`bookingsController.js` lines 479-570), the state and
refund computation: terminal-status guard, then the time-based refund
schedule.  The refund-record persistence and the authorization check carry
nothing the verified properties depend on and are left out.  Returns the
updated booking, the refund amount and the refund percentage. -/
def cancelBooking (b : Booking) (now : Int) (cancellation_reason : Option String) :
    Except ErrCode (Booking × ℚ × ℚ) :=
  if b.status ∈ terminalStatuses then .error .bizOperationNotAllowed
  else
    let refundPercentage := cancelRefundPercentage b.start_time now
    let refundAmount := b.final_price * refundPercentage / 100
    let b' := { b with
      status := .cancelled,
      cancellation_reason := some (cancellation_reason.getD "User cancelled"),
      cancelled_at := some now,
      refund_amount := refundAmount }
    .ok (b', refundAmount, refundPercentage)

/-- The check-in code test of `checkIn` (`bookingsController.js` line 617):
rejected only when a code was supplied, the booking stores one, and they
differ. -/
def verificationMismatch (supplied stored : Option String) : Bool :=
  match supplied, stored with
  | some v, some w => v != w
  | _, _ => false

/-- Embedding of `checkIn` (`bookingsController.js` lines 577-638).  The pair is
(handler result, booking state as persisted after the call): a late
check-in saves the `no_show` status even though the request fails. -/
def checkIn (b : Booking) (now : Int) (verification_code : Option String) :
    Except ErrCode Booking × Booking :=
  if b.status ≠ .confirmed then (.error .bizOperationNotAllowed, b)
  else
    let earlyCheckIn := b.start_time - msPerHour
    let lateCheckIn := b.start_time + msPerHour
    if now < earlyCheckIn then (.error .bizOperationNotAllowed, b)
    else if now > lateCheckIn then
      let b' := { b with status := BookingStatus.no_show }
      (.error .bizOperationNotAllowed, b')
    else if verificationMismatch verification_code b.verification_code then
      (.error .bizValidation, b)
    else
      let b' := { b with status := BookingStatus.active, actual_start_time := some now }
      (.ok b', b')

/-- Embedding of `checkOut` (`bookingsController.js` lines 645-711): only active bookings;
overtime charge `ceil(overtimeMs / hour) * hourly_rate * 1.5` when past the
end time (and the space lookup succeeded), added onto `final_price`.
Returns the updated booking and the overtime charge. -/
def checkOut (b : Booking) (parkingSpace : Option ParkingSpace) (now : Int) :
    Except ErrCode (Booking × ℚ) :=
  if b.status ≠ .active then .error .bizOperationNotAllowed
  else
    let overtimeCharge : ℚ :=
      if now > b.end_time then
        match parkingSpace with
        | some ps =>
          ((⌈((now - b.end_time : ℤ) : ℚ) / (1000 * 60 * 60)⌉ : ℤ) : ℚ) *
            ps.hourly_rate * (3 / 2)
        | none => 0
      else 0
    let b1 := { b with status := BookingStatus.completed, actual_end_time := some now }
    let b2 :=
      if overtimeCharge > 0 then
        { b1 with overtime_charge := overtimeCharge,
                  final_price := b1.final_price + overtimeCharge }
      else b1
    .ok (b2, overtimeCharge)

/-- Promo code document with the paths the PromoCode schema actually
declares (`promoCodeSchema` in `models/Payment.js` lines 142-198): `code`,
`promo_type` (percentage / fixed_amount / free_hours), `discount_value`,
`max_discount_amount`, validity window, `usage_limit_total`, `usage_count`,
`is_active`.  The names `createBooking` reads — `discount_type`,
`max_uses`, `used_count`, `min_booking_amount` — are NOT schema paths and a
hydrated strict-mode document exposes no such properties. -/
structure PromoCode where
  code : String
  promo_type : String
  discount_value : ℚ
  max_discount_amount : Option ℚ
  valid_from : Int
  valid_to : Int
  usage_limit_total : Option Nat
  usage_count : Nat
  is_active : Bool
  deriving DecidableEq, Repr

/-- JS truthiness of an optional numeric field (`if (promoCode.max_discount_amount)`
and friends): present and non-zero. -/
def ratFieldSet : Option ℚ → Bool
  | some v => v != 0
  | none => false

/-- Embedding of `createBooking` (`bookingsController.js` lines 234-374), the
slice from date validation through pricing, promo application and document
creation.  Vehicle ownership/verification and the `isNaN` parse guard
concern request plumbing and are left out; the date checks, space status
check, conflict check and the pricing/promo computation are kept as
executed.  In the promo branch the source reads `promo.max_uses`,
`promo.used_count`, `promo.min_booking_amount` and `promo.discount_type`
(lines 312-329); none of these is a path of `promoCodeSchema` (which
declares `usage_limit_total`, `usage_count`, `promo_type` and no minimum
amount), so on the hydrated Mongoose document every one of those reads is
`undefined`: the usage and minimum-amount guards are falsy and skipped, and
neither the `=== 'percentage'` nor the `=== 'fixed'` comparison holds, so
`discountAmount` keeps its initial 0 for every found promo.  The created
document's store-assigned identifier is modelled as 0 and the fields the
source does not set are 0/none/[]. -/
def createBooking (bookings : List Booking) (promos : List PromoCode)
    (parkingSpace : ParkingSpace) (spaceId : Nat)
    (startTime endTime now : Int) (promo_code : Option String) :
    Except ErrCode Booking :=
  if startTime < now then .error .bizValidation
  else if endTime ≤ startTime then .error .bizValidation
  else if parkingSpace.status ≠ "active" then .error .bizUnavailable
  else if (hasBookingConflict bookings spaceId startTime endTime none).isSome then
    .error .bizConflict
  else
    let durationHours : ℚ := ((endTime - startTime : ℤ) : ℚ) / (1000 * 60 * 60)
    let totalPrice := calculateBookingPrice parkingSpace durationHours
    let mkDoc : ℚ → ℚ → Booking := fun discountAmount finalPrice =>
      { _id := 0, space_id := spaceId, start_time := startTime, end_time := endTime,
        duration_hours := durationHours, base_price := totalPrice,
        discount_amount := discountAmount, total_amount := finalPrice,
        status := .pending, cancellation_reason := none,
        total_price := 0, final_price := 0, overtime_charge := 0,
        refund_amount := 0, extensions := [], verification_code := none,
        actual_start_time := none, actual_end_time := none, cancelled_at := none }
    match promo_code with
    | none => .ok (mkDoc 0 totalPrice)
    | some c =>
      match promos.find? (fun p => p.code == c && p.is_active &&
          decide (p.valid_from ≤ now) && decide (now ≤ p.valid_to)) with
      | none => .error .bizValidation
      | some _promo =>
        -- `if (promo.max_uses && ...)`: `promo.max_uses` is undefined
        -- (schema path: `usage_limit_total`) — guard falsy, skipped.
        -- `if (promo.min_booking_amount && ...)`: undefined — skipped.
        -- `promo.discount_type === 'percentage' / 'fixed'`: undefined
        -- (schema path: `promo_type`) — both comparisons false.
        let discountAmount : ℚ := 0
        let finalPrice := max 0 (totalPrice - discountAmount)
        .ok (mkDoc discountAmount finalPrice)

/-- Embedding of the discount computation of `validatePromoCode`
(`promoCodesController.js` lines 276-297), which reads the schema's real
`promo_type`, `discount_value` and `max_discount_amount` paths: this is the
computation the spec's promo-discount rules describe. -/
def validatePromoCodeDiscount (promoCode : PromoCode) (booking_amount : ℚ) : ℚ :=
  if promoCode.promo_type = "percentage" then
    let d := booking_amount * promoCode.discount_value / 100
    if ratFieldSet promoCode.max_discount_amount &&
        decide (promoCode.max_discount_amount.getD 0 < d) then
      promoCode.max_discount_amount.getD 0
    else d
  else if promoCode.promo_type = "fixed_amount" then
    if promoCode.discount_value > booking_amount then booking_amount
    else promoCode.discount_value
  else if promoCode.promo_type = "free_hours" then
    promoCode.discount_value
  else 0

/-- Embedding of `extendBooking` (`bookingsController.js` lines 718-809): status guard,
date guards, conflict check over the added interval `[end, new_end)`
excluding the booking itself, extension priced through
`calculateBookingPrice`, and the monetary/extension fields updated.
Returns the updated booking, the old end, the new end and the charge. -/
def extendBooking (bookings : List Booking) (b : Booking) (space : ParkingSpace)
    (new_end_time : Int) (now : Int) :
    Except ErrCode (Booking × Int × Int × ℚ) :=
  if ¬ (b.status = .confirmed ∨ b.status = .active) then .error .bizOperationNotAllowed
  else if new_end_time ≤ b.end_time then .error .bizValidation
  else if new_end_time ≤ now then .error .bizValidation
  else if (hasBookingConflict bookings b.space_id b.end_time new_end_time (some b._id)).isSome then
    .error .bizConflict
  else
    let extensionHours : ℚ := ((new_end_time - b.end_time : ℤ) : ℚ) / (1000 * 60 * 60)
    let extensionPrice := calculateBookingPrice space extensionHours
    let oldEndTime := b.end_time
    let b' := { b with
      end_time := new_end_time,
      total_price := b.total_price + extensionPrice,
      final_price := b.final_price + extensionPrice,
      extensions := b.extensions ++
        [{ old_end_time := oldEndTime, new_end_time := new_end_time,
           extension_price := extensionPrice, extended_at := now }] }
    .ok (b', oldEndTime, new_end_time, extensionPrice)

/-- JavaScript `time.split(':')` on the character list: splits at every
colon, keeping empty segments, exactly as `String.split` does for a
single-character separator. -/
def splitOnColon : List Char → List (List Char)
  | [] => [[]]
  | c :: rest =>
    if c = ':' then [] :: splitOnColon rest
    else
      match splitOnColon rest with
      | [] => [[c]]
      | p :: ps => (c :: p) :: ps

/-- JavaScript `Number(s)` / `parseInt(s)` on the all-digit segments the schema's
`HH:MM` pattern guarantees. -/
def digitsToNat (l : List Char) : Nat :=
  l.foldl (fun n c => n * 10 + (c.toNat - 48)) 0

/-- The `toMinutes` helper inside `hasTimeConflict` of the availability
controller: `HH:MM` split on `:`, both parts read as numbers, `h*60 + m`. -/
def toMinutes (time : String) : Nat :=
  let parts := (splitOnColon time.toList).map digitsToNat
  parts.getD 0 0 * 60 + parts.getD 1 0

/-- Embedding of `hasTimeConflict` of the availability controller (lines 15-29):
`s1 < e2 && e1 > s2` over minutes since midnight. -/
def hasTimeConflict (start1 end1 start2 end2 : String) : Bool :=
  decide (toMinutes start1 < toMinutes end2) && decide (toMinutes end1 > toMinutes start2)

/-- Inline `parseInt(x.split(':')[0]) * 60 + parseInt(x.split(':')[1])` of
`createAvailability` / `updateAvailability` / `bulkCreateAvailability`. -/
def availabilityMinutes (t : String) : Nat :=
  digitsToNat ((splitOnColon t.toList).getD 0 []) * 60 +
    digitsToNat ((splitOnColon t.toList).getD 1 [])

/-- A stored SpaceAvailability document (`models/SpaceAvailability.js`). -/
structure SpaceAvailability where
  _id : Nat
  space_id : Nat
  day_of_week : Nat
  available_from : String
  available_to : String
  is_available : Bool
  deriving DecidableEq, Repr

/-- Embedding of `createAvailability` of the availability controller (lines 72-138), from
the time-range validation on: the conflict scan queries
`{space_id, day_of_week}` — with no condition on `is_available` — and rejects
on the first window `hasTimeConflict` reports.  Space existence and owner
authorization are request plumbing and left out; the store-assigned
identifier of the created document is modelled as 0.  A conflict error
carries the conflicting schedule the handler reports. -/
def createAvailability (schedules : List SpaceAvailability) (spaceId : Nat)
    (day_of_week : Nat) (available_from available_to : String)
    (is_available : Option Bool) :
    Except (ErrCode × Option SpaceAvailability) SpaceAvailability :=
  let fromMinutes := availabilityMinutes available_from
  let toMins := availabilityMinutes available_to
  if fromMinutes ≥ toMins then .error (.reqValidation, none)
  else
    let existingSchedules := schedules.filter fun s =>
      s.space_id == spaceId && s.day_of_week == day_of_week
    match existingSchedules.find? (fun s =>
        hasTimeConflict available_from available_to s.available_from s.available_to) with
    | some s => .error (.bizConflict, some s)
    | none =>
      .ok { _id := 0, space_id := spaceId, day_of_week := day_of_week,
            available_from := available_from, available_to := available_to,
            is_available := is_available.getD true }

/-- Embedding of `updateAvailability` of the availability controller (lines 145-220):
absent request fields default to the stored values, the range is
re-validated, and the conflict scan queries
`{_id ≠ id, space_id, day_of_week}` — again with no `is_available`
condition — before the fields are written. -/
def updateAvailability (schedules : List SpaceAvailability) (id : Nat)
    (day_of_week : Option Nat) (available_from available_to : Option String)
    (is_available : Option Bool) :
    Except (ErrCode × Option SpaceAvailability) SpaceAvailability :=
  match schedules.find? (fun s => s._id == id) with
  | none => .error (.notFound, none)
  | some availability =>
    let newFrom := available_from.getD availability.available_from
    let newTo := available_to.getD availability.available_to
    let newDay := day_of_week.getD availability.day_of_week
    if availabilityMinutes newFrom ≥ availabilityMinutes newTo then
      .error (.reqValidation, none)
    else
      let existingSchedules := schedules.filter fun s =>
        s._id != id && s.space_id == availability.space_id && s.day_of_week == newDay
      match existingSchedules.find? (fun s =>
          hasTimeConflict newFrom newTo s.available_from s.available_to) with
      | some s => .error (.bizConflict, some s)
      | none =>
        .ok { availability with
          day_of_week := newDay, available_from := newFrom, available_to := newTo,
          is_available := is_available.getD availability.is_available }

/-- One entry of the `schedules` array submitted to bulk creation. -/
structure BulkScheduleEntry where
  day_of_week : Option Nat
  available_from : Option String
  available_to : Option String
  is_available : Option Bool
  deriving DecidableEq, Repr

/-- The specific rejection reasons `bulkCreateAvailability` reports per
failed entry. -/
inductive BulkFailReason where
  | missingFields
  | invalidRange
  | conflictExisting (w : SpaceAvailability)
  | conflictInBatch
  deriving DecidableEq, Repr

/-- A failed entry of the bulk result: its position in the submitted array
and the reason. -/
structure BulkFailure where
  index : Nat
  reason : BulkFailReason
  deriving DecidableEq, Repr

/-- The bulk-creation response body
`{created, created_count, failed_count, errors}`. -/
structure BulkResult where
  created : List SpaceAvailability
  created_count : Nat
  failed_count : Nat
  errors : List BulkFailure
  deriving DecidableEq, Repr

/-- JS falsiness of an optional string request field (`!available_from`):
absent or empty. -/
def strFieldFalsy : Option String → Bool
  | none => true
  | some s => s.isEmpty

/-- The document `bulkCreateAvailability` creates for an accepted entry. -/
def mkBulkWindow (spaceId : Nat) (e : BulkScheduleEntry) : SpaceAvailability :=
  { _id := 0, space_id := spaceId, day_of_week := e.day_of_week.getD 0,
    available_from := e.available_from.getD "", available_to := e.available_to.getD "",
    is_available := e.is_available.getD true }

/-- The per-entry validation of `bulkCreateAvailability` (lines 300-361):
required fields, time range, conflict against the pre-existing schedules of
the same day, then conflict against the windows already accepted earlier in
the same batch.  `none` means the entry is accepted. -/
def bulkEntryCheck (existingSchedules createdSchedules : List SpaceAvailability)
    (e : BulkScheduleEntry) : Option BulkFailReason :=
  match e.day_of_week with
  | none => some .missingFields
  | some d =>
    if strFieldFalsy e.available_from || strFieldFalsy e.available_to then
      some .missingFields
    else
      let f := e.available_from.getD ""
      let t := e.available_to.getD ""
      if availabilityMinutes f ≥ availabilityMinutes t then some .invalidRange
      else
        match existingSchedules.find? (fun w => w.day_of_week == d &&
            hasTimeConflict f t w.available_from w.available_to) with
        | some w => some (.conflictExisting w)
        | none =>
          if createdSchedules.any (fun w => w.day_of_week == d &&
              hasTimeConflict f t w.available_from w.available_to) then
            some .conflictInBatch
          else none

/-- The sequential loop of `bulkCreateAvailability` (lines 296-380): entries
in list order, an accepted entry appended to the created accumulator, a
failed entry recorded with its index, processing always continuing. -/
def bulkAux (existingSchedules : List SpaceAvailability) (spaceId : Nat) :
    Nat → List SpaceAvailability → List BulkFailure → List BulkScheduleEntry →
    List SpaceAvailability × List BulkFailure
  | _, created, errs, [] => (created, errs)
  | i, created, errs, e :: rest =>
    match bulkEntryCheck existingSchedules created e with
    | some r =>
      bulkAux existingSchedules spaceId (i + 1) created (errs ++ [⟨i, r⟩]) rest
    | none =>
      bulkAux existingSchedules spaceId (i + 1) (created ++ [mkBulkWindow spaceId e]) errs rest

/-- Embedding of `bulkCreateAvailability` (lines 265-392): non-empty batch required,
then the sequential loop; the response reports the created windows, both
counts and the per-entry failures. -/
def bulkCreateAvailability (existingSchedules : List SpaceAvailability) (spaceId : Nat)
    (schedules : List BulkScheduleEntry) : Except ErrCode BulkResult :=
  if schedules.isEmpty then .error .reqValidation
  else
    let cr := bulkAux existingSchedules spaceId 0 [] [] schedules
    .ok { created := cr.1, created_count := cr.1.length,
          failed_count := cr.2.length, errors := cr.2 }

end BnbBackend

namespace BnbBackend

/-- A concrete stored booking used by the closed witnesses. -/
def sampleBooking : Booking :=
  { _id := 1, space_id := 7, start_time := 50, end_time := 150,
    duration_hours := 0, base_price := 0, discount_amount := 0, total_amount := 0,
    status := .pending, cancellation_reason := none, total_price := 0,
    final_price := 0, overtime_charge := 0, refund_amount := 0, extensions := [],
    verification_code := none, actual_start_time := none, actual_end_time := none,
    cancelled_at := none }

/-- C1: for a space, a candidate interval `[S,E)` with `S < E` and a stored
reservation with interval `[s,e)` (`s < e`), the three-disjunct filter of
`hasBookingConflict` reports the reservation as conflicting iff `s < E` and
`e > S` and its status is not cancelled/completed/no_show; touching
intervals (`e = S` or `s = E`) are never reported. -/
theorem conflictFilter_iff_halfOpen (spaceId : Nat) (S E : Int) (b : Booking)
    (hspace : b.space_id = spaceId) (hSE : S < E)
    (hb : b.start_time < b.end_time) :
    (ConflictFilter spaceId S E b ↔
      (b.start_time < E ∧ b.end_time > S ∧ b.status ∉ terminalStatuses)) ∧
    (b.end_time = S → ¬ ConflictFilter spaceId S E b) ∧
    (b.start_time = E → ¬ ConflictFilter spaceId S E b) := by
  unfold ConflictFilter
  have hiv : ((b.start_time ≤ S ∧ b.end_time > S) ∨
      (b.start_time < E ∧ b.end_time ≥ E) ∨
      (b.start_time ≥ S ∧ b.end_time ≤ E)) ↔
      (b.start_time < E ∧ b.end_time > S) := by omega
  refine ⟨?_, ?_, ?_⟩
  · constructor
    · rintro ⟨-, hst, hor⟩
      exact ⟨(hiv.mp hor).1, (hiv.mp hor).2, hst⟩
    · rintro ⟨h1, h2, hst⟩
      exact ⟨hspace, hst, hiv.mpr ⟨h1, h2⟩⟩
  · rintro hend ⟨-, -, hor⟩
    have := hiv.mp hor
    omega
  · rintro hstart ⟨-, -, hor⟩
    have := hiv.mp hor
    omega

/-- Witness for C1: the rule instantiated on a concrete booking `[50,150)`
against the candidate `[0,100)` on space 7. -/
theorem conflictFilter_iff_halfOpen_witness :
    (ConflictFilter 7 0 100 sampleBooking ↔
      (sampleBooking.start_time < 100 ∧ sampleBooking.end_time > 0 ∧
        sampleBooking.status ∉ terminalStatuses)) ∧
    (sampleBooking.end_time = 0 → ¬ ConflictFilter 7 0 100 sampleBooking) ∧
    (sampleBooking.start_time = 100 → ¬ ConflictFilter 7 0 100 sampleBooking) :=
  conflictFilter_iff_halfOpen 7 0 100 sampleBooking rfl (by decide) (by decide)

/-- C2: tiered pricing of `calculateBookingPrice` over non-negative rates and
positive duration `d` (hours): hourly for `d ≤ 24`, daily with
`ceil(d / 24)` days for `24 < d ≤ 720`, monthly with `ceil(d / 720)` months
beyond; a 24.0-hour duration prices on the hourly tier and a 24.01-hour
duration as 2 days on the daily tier. -/
theorem calculateBookingPrice_tiers (p : ParkingSpace) (d : ℚ)
    (hd : 0 < d) (h1 : 0 ≤ p.hourly_rate) (h2 : 0 ≤ p.daily_rate)
    (h3 : 0 ≤ p.monthly_rate) :
    (d ≤ 24 → calculateBookingPrice p d = p.hourly_rate * d) ∧
    (24 < d → d ≤ 720 →
      calculateBookingPrice p d = p.daily_rate * ((⌈d / 24⌉ : ℤ) : ℚ)) ∧
    (720 < d →
      calculateBookingPrice p d = p.monthly_rate * ((⌈d / 720⌉ : ℤ) : ℚ)) ∧
    calculateBookingPrice p 24 = p.hourly_rate * 24 ∧
    calculateBookingPrice p (2401 / 100) = p.daily_rate * 2 := by
  refine ⟨?_, ?_, ?_, ?_, ?_⟩
  · intro h
    rw [calculateBookingPrice, if_pos h]
  · intro ha hb
    rw [calculateBookingPrice, if_neg (by linarith), if_pos (by linarith)]
  · intro h
    rw [calculateBookingPrice, if_neg (by linarith), if_neg (by push_neg; linarith)]
    norm_num
  · rw [calculateBookingPrice, if_pos (by norm_num)]
  · rw [calculateBookingPrice, if_neg (by norm_num), if_pos (by norm_num)]
    have hc : (⌈(2401 / 100 : ℚ) / 24⌉ : ℤ) = 2 := by
      rw [Int.ceil_eq_iff] <;> norm_num
    rw [hc]
    norm_num

/-- Witness for C2: the rate card `{hourly 10, daily 80, monthly 600}` at the
boundary durations. -/
theorem calculateBookingPrice_tiers_witness :
    ((24 : ℚ) ≤ 24 →
      calculateBookingPrice ⟨10, 80, 600, "active"⟩ 24 = (10 : ℚ) * 24) ∧
    ((24 : ℚ) < 24 → (24 : ℚ) ≤ 720 →
      calculateBookingPrice ⟨10, 80, 600, "active"⟩ 24 = 80 * ((⌈(24 : ℚ) / 24⌉ : ℤ) : ℚ)) ∧
    ((720 : ℚ) < 24 →
      calculateBookingPrice ⟨10, 80, 600, "active"⟩ 24 = 600 * ((⌈(24 : ℚ) / 720⌉ : ℤ) : ℚ)) ∧
    calculateBookingPrice ⟨10, 80, 600, "active"⟩ 24 = (10 : ℚ) * 24 ∧
    calculateBookingPrice ⟨10, 80, 600, "active"⟩ (2401 / 100) = 80 * 2 :=
  calculateBookingPrice_tiers ⟨10, 80, 600, "active"⟩ 24 (by norm_num) (by norm_num)
    (by norm_num) (by norm_num)

/-- C3: cancelling a booking whose status is not terminal computes the
refund percentage 0 once the booking has started, else 100 / 50 / 0 by the
strict 48h / 24h tiers; exactly 48 hours before start yields 50. -/
theorem cancelBooking_refund_schedule (b : Booking) (now : Int) (r : Option String)
    (hst : b.status ∉ terminalStatuses) :
    (∃ b', cancelBooking b now r =
        .ok (b', b.final_price * cancelRefundPercentage b.start_time now / 100,
             cancelRefundPercentage b.start_time now) ∧
      b'.status = .cancelled) ∧
    (b.start_time ≤ now → cancelRefundPercentage b.start_time now = 0) ∧
    (now < b.start_time →
      ((48 : ℚ) < ((b.start_time - now : ℤ) : ℚ) / (1000 * 60 * 60) →
        cancelRefundPercentage b.start_time now = 100) ∧
      ((24 : ℚ) < ((b.start_time - now : ℤ) : ℚ) / (1000 * 60 * 60) →
        ((b.start_time - now : ℤ) : ℚ) / (1000 * 60 * 60) ≤ 48 →
        cancelRefundPercentage b.start_time now = 50) ∧
      (((b.start_time - now : ℤ) : ℚ) / (1000 * 60 * 60) ≤ 24 →
        cancelRefundPercentage b.start_time now = 0)) ∧
    (b.start_time - now = 48 * msPerHour →
      cancelRefundPercentage b.start_time now = 50) := by
  have hms : msPerHour = 3600000 := rfl
  refine ⟨⟨?_, ?_, ?_⟩, ?_, ?_, ?_⟩
  · exact { b with
      status := BookingStatus.cancelled,
      cancellation_reason := some (r.getD "User cancelled"),
      cancelled_at := some now,
      refund_amount := b.final_price * cancelRefundPercentage b.start_time now / 100 }
  · simp only [cancelBooking]
    rw [if_neg hst]
  · rfl
  · intro h
    rw [cancelRefundPercentage, if_pos h]
  · intro h
    rw [cancelRefundPercentage, if_neg (by omega)]
    refine ⟨?_, ?_, ?_⟩
    · intro h48
      simp only [gt_iff_lt]
      rw [if_pos (by push_cast; push_cast at h48; linarith)]
    · intro h24 h48
      simp only [gt_iff_lt]
      rw [if_neg (by push_cast; push_cast at h48; linarith),
        if_pos (by push_cast; push_cast at h24; linarith)]
    · intro h24
      simp only [gt_iff_lt]
      rw [if_neg (by push_cast; push_cast at h24; linarith),
        if_neg (by push_cast; push_cast at h24; linarith)]
  · intro heq
    rw [cancelRefundPercentage, if_neg (by omega)]
    have hq : ((b.start_time - now : ℤ) : ℚ) / (1000 * 60 * 60) = 48 := by
      rw [heq, hms]
      norm_num
    simp only [gt_iff_lt, hq]
    norm_num

/-- Witness for C3: cancelling a pending booking exactly 48 hours before its
start yields the 50% tier. -/
theorem cancelBooking_refund_schedule_witness :
    (∃ b', cancelBooking sampleBooking (50 - 48 * msPerHour) none =
        .ok (b', sampleBooking.final_price *
              cancelRefundPercentage sampleBooking.start_time (50 - 48 * msPerHour) / 100,
             cancelRefundPercentage sampleBooking.start_time (50 - 48 * msPerHour)) ∧
      b'.status = .cancelled) ∧
    (sampleBooking.start_time ≤ 50 - 48 * msPerHour →
      cancelRefundPercentage sampleBooking.start_time (50 - 48 * msPerHour) = 0) ∧
    (50 - 48 * msPerHour < sampleBooking.start_time →
      ((48 : ℚ) < ((sampleBooking.start_time - (50 - 48 * msPerHour) : ℤ) : ℚ) / (1000 * 60 * 60) →
        cancelRefundPercentage sampleBooking.start_time (50 - 48 * msPerHour) = 100) ∧
      ((24 : ℚ) < ((sampleBooking.start_time - (50 - 48 * msPerHour) : ℤ) : ℚ) / (1000 * 60 * 60) →
        ((sampleBooking.start_time - (50 - 48 * msPerHour) : ℤ) : ℚ) / (1000 * 60 * 60) ≤ 48 →
        cancelRefundPercentage sampleBooking.start_time (50 - 48 * msPerHour) = 50) ∧
      (((sampleBooking.start_time - (50 - 48 * msPerHour) : ℤ) : ℚ) / (1000 * 60 * 60) ≤ 24 →
        cancelRefundPercentage sampleBooking.start_time (50 - 48 * msPerHour) = 0)) ∧
    (sampleBooking.start_time - (50 - 48 * msPerHour) = 48 * msPerHour →
      cancelRefundPercentage sampleBooking.start_time (50 - 48 * msPerHour) = 50) :=
  cancelBooking_refund_schedule sampleBooking (50 - 48 * msPerHour) none (by decide)

/-- The sample booking in `confirmed` status. -/
def sampleConfirmed : Booking :=
  { sampleBooking with status := BookingStatus.confirmed }

/-- The sample booking in `active` status. -/
def sampleActive : Booking :=
  { sampleBooking with status := BookingStatus.active }

/-- The rate card of the spec's scenarios: hourly 10, daily 80, monthly 600. -/
def sampleRateCard : ParkingSpace := ⟨10, 80, 600, "active"⟩

/-- C5: a check-in attempt on a confirmed booking succeeds iff the current
time lies in `[start − 1h, start + 1h]` and any supplied verification code
matches; strictly after `start + 1h` the stored status becomes `no_show`
and the attempt is rejected; on success the booking becomes `active` with
the actual start recorded. -/
theorem checkIn_window_spec (b : Booking) (now : Int) (vc : Option String)
    (hst : b.status = .confirmed) :
    ((checkIn b now vc).1.isOk = true ↔
      (b.start_time - msPerHour ≤ now ∧ now ≤ b.start_time + msPerHour ∧
        verificationMismatch vc b.verification_code = false)) ∧
    (b.start_time + msPerHour < now →
      (checkIn b now vc).2.status = .no_show ∧ (checkIn b now vc).1.isOk = false) ∧
    (∀ b', (checkIn b now vc).1 = .ok b' →
      b'.status = .active ∧ b'.actual_start_time = some now) := by
  have hne : ¬ b.status ≠ BookingStatus.confirmed := by simp [hst]
  have hm0 : (0 : Int) < msPerHour := by norm_num [msPerHour]
  simp only [checkIn, if_neg hne]
  by_cases h1 : now < b.start_time - msPerHour
  · rw [if_pos h1]
    refine ⟨?_, ?_, ?_⟩
    · constructor
      · intro hF
        simp [Except.isOk, Except.toBool] at hF
      · rintro ⟨ha, -, -⟩
        exact absurd ha (by omega)
    · intro hlate
      exact absurd hlate (by omega)
    · intro b' hok
      simp at hok
  · rw [if_neg h1]
    by_cases h2 : now > b.start_time + msPerHour
    · rw [if_pos h2]
      refine ⟨?_, ?_, ?_⟩
      · constructor
        · intro hF
          simp [Except.isOk, Except.toBool] at hF
        · rintro ⟨-, hb, -⟩
          exact absurd hb (by omega)
      · intro hlate
        exact ⟨rfl, rfl⟩
      · intro b' hok
        simp at hok
    · rw [if_neg h2]
      by_cases h3 : verificationMismatch vc b.verification_code = true
      · rw [if_pos h3]
        refine ⟨?_, ?_, ?_⟩
        · constructor
          · intro hF
            simp [Except.isOk, Except.toBool] at hF
          · rintro ⟨-, -, hc⟩
            rw [h3] at hc
            cases hc
        · intro hlate
          exact absurd hlate h2
        · intro b' hok
          simp at hok
      · rw [if_neg h3]
        refine ⟨?_, ?_, ?_⟩
        · constructor
          · intro hF
            exact ⟨by omega, by omega, by simpa using h3⟩
          · intro h
            rfl
        · intro hlate
          exact absurd hlate h2
        · intro b' hok
          simp only [Except.ok.injEq] at hok
          rw [← hok]
          exact ⟨rfl, rfl⟩

/-- Witness for C5: a check-in at `start + 2h` on a concrete confirmed
booking. -/
theorem checkIn_window_spec_witness :
    ((checkIn sampleConfirmed (50 + 2 * msPerHour) none).1.isOk = true ↔
      (sampleConfirmed.start_time - msPerHour ≤ 50 + 2 * msPerHour ∧
        50 + 2 * msPerHour ≤ sampleConfirmed.start_time + msPerHour ∧
        verificationMismatch none sampleConfirmed.verification_code = false)) ∧
    (sampleConfirmed.start_time + msPerHour < 50 + 2 * msPerHour →
      (checkIn sampleConfirmed (50 + 2 * msPerHour) none).2.status = .no_show ∧
      (checkIn sampleConfirmed (50 + 2 * msPerHour) none).1.isOk = false) ∧
    (∀ b', (checkIn sampleConfirmed (50 + 2 * msPerHour) none).1 = .ok b' →
      b'.status = .active ∧ b'.actual_start_time = some (50 + 2 * msPerHour)) :=
  checkIn_window_spec sampleConfirmed (50 + 2 * msPerHour) none (by decide)

/-- C6: checking out an active booking past its end time completes it and
adds an overtime charge `ceil(overtime_hours) * hourly_rate * 1.5` onto its
total; three hours past the end with hourly rate 10 the charge is 45;
check-out on a non-active booking is rejected. -/
theorem checkOut_overtime_spec (b : Booking) (ps : ParkingSpace) (now : Int)
    (hst : b.status = .active) :
    (∃ b' c, checkOut b (some ps) now = .ok (b', c) ∧
      b'.status = .completed ∧
      (b.end_time < now →
        c = ((⌈((now - b.end_time : ℤ) : ℚ) / (1000 * 60 * 60)⌉ : ℤ) : ℚ) *
          ps.hourly_rate * (3 / 2) ∧
        (0 < c → b'.final_price = b.final_price + c)) ∧
      (now ≤ b.end_time → c = 0)) ∧
    (now = b.end_time + 3 * msPerHour → ps.hourly_rate = 10 →
      ∃ b', checkOut b (some ps) now = .ok (b', 45) ∧ b'.status = .completed ∧
        b'.final_price = b.final_price + 45) ∧
    (∀ bb : Booking, bb.status ≠ .active →
      checkOut bb (some ps) now = .error .bizOperationNotAllowed) := by
  have hne : ¬ b.status ≠ BookingStatus.active := by simp [hst]
  refine ⟨?_, ?_, ?_⟩
  · simp only [checkOut, if_neg hne]
    by_cases hov : b.end_time < now
    · rw [if_pos hov]
      refine ⟨_, _, rfl, ?_, ?_, ?_⟩
      · split_ifs <;> rfl
      · intro hov2
        refine ⟨rfl, ?_⟩
        intro hcpos
        rw [if_pos hcpos]
      · intro hle
        exact absurd hov (by omega)
    · rw [if_neg hov]
      rw [if_neg (by norm_num : ¬ ((0 : ℚ) > 0))]
      exact ⟨_, _, rfl, rfl, fun h => absurd h hov, fun _ => rfl⟩
  · intro h3 hrate
    have hm0 : (0 : Int) < msPerHour := by norm_num [msPerHour]
    have hov : b.end_time < now := by omega
    have h4 : now - b.end_time = 10800000 := by
      rw [h3]
      norm_num [msPerHour]
    have hcalc : ((⌈((now - b.end_time : ℤ) : ℚ) / (1000 * 60 * 60)⌉ : ℤ) : ℚ) *
        ps.hourly_rate * (3 / 2) = 45 := by
      rw [h4, hrate]
      have hceil : (⌈((10800000 : ℤ) : ℚ) / (1000 * 60 * 60)⌉ : ℤ) = 3 := by
        rw [Int.ceil_eq_iff] <;> norm_num
      rw [hceil]
      norm_num
    simp only [checkOut, if_neg hne]
    rw [if_pos hov, hcalc, if_pos (by norm_num : (45 : ℚ) > 0)]
    exact ⟨_, rfl, rfl, rfl⟩
  · intro bb hbb
    simp only [checkOut, if_pos hbb]

/-- Witness for C6: check-out of a concrete active booking three hours past
its end on the hourly-10 rate card, yielding the 45 overtime charge. -/
theorem checkOut_overtime_spec_witness :
    (∃ b' c, checkOut sampleActive (some sampleRateCard) (150 + 3 * msPerHour) = .ok (b', c) ∧
      b'.status = .completed ∧
      (sampleActive.end_time < 150 + 3 * msPerHour →
        c = ((⌈((150 + 3 * msPerHour - sampleActive.end_time : ℤ) : ℚ) / (1000 * 60 * 60)⌉ : ℤ) : ℚ) *
          sampleRateCard.hourly_rate * (3 / 2) ∧
        (0 < c → b'.final_price = sampleActive.final_price + c)) ∧
      (150 + 3 * msPerHour ≤ sampleActive.end_time → c = 0)) ∧
    (150 + 3 * msPerHour = sampleActive.end_time + 3 * msPerHour →
      sampleRateCard.hourly_rate = 10 →
      ∃ b', checkOut sampleActive (some sampleRateCard) (150 + 3 * msPerHour) = .ok (b', 45) ∧
        b'.status = .completed ∧ b'.final_price = sampleActive.final_price + 45) ∧
    (∀ bb : Booking, bb.status ≠ .active →
      checkOut bb (some sampleRateCard) (150 + 3 * msPerHour) = .error .bizOperationNotAllowed) :=
  checkOut_overtime_spec sampleActive sampleRateCard (150 + 3 * msPerHour) (by decide)

/-- The spec scenario's promo, as the PromoCode schema stores it: 20%
percentage discount capped at 5, active and valid around instant 0. -/
def samplePromo : PromoCode :=
  { code := "SAVE20", promo_type := "percentage", discount_value := 20,
    max_discount_amount := some 5, valid_from := 0, valid_to := 0,
    usage_limit_total := none, usage_count := 0, is_active := true }

/-- The promo branch of `createBooking` as executed: whenever the promo
lookup succeeds, the created booking carries discount 0 (the controller's
field names miss the schema paths, see `createBooking`). -/
lemma createBooking_found_promo_zero (bookings : List Booking)
    (promos : List PromoCode) (ps : ParkingSpace) (spaceId : Nat)
    (startTime endTime now : Int) (c : String) (promo : PromoCode)
    (h1 : now ≤ startTime) (h2 : startTime < endTime)
    (h3 : ps.status = "active")
    (h4 : (hasBookingConflict bookings spaceId startTime endTime none).isSome = false)
    (h5 : promos.find? (fun p => p.code == c && p.is_active &&
      decide (p.valid_from ≤ now) && decide (now ≤ p.valid_to)) = some promo) :
    ∃ b, createBooking bookings promos ps spaceId startTime endTime now (some c) = .ok b ∧
      b.base_price =
        calculateBookingPrice ps (((endTime - startTime : ℤ) : ℚ) / (1000 * 60 * 60)) ∧
      b.discount_amount = 0 ∧
      b.total_amount = max 0 (b.base_price - b.discount_amount) ∧
      b.status = .pending := by
  simp only [createBooking, if_neg (not_lt.mpr h1), if_neg (not_le.mpr h2)]
  rw [if_neg (by simp [h3]), if_neg (by simp [h4]), h5]
  exact ⟨_, rfl, rfl, rfl, rfl, rfl⟩

/-- C4 (code bug): the claim describes the intended promo computation, but
`createBooking` reads `discount_type`, `max_uses`, `used_count` and
`min_booking_amount`, none of which is a path of the PromoCode schema
(`promo_type`, `usage_limit_total`, `usage_count`, and no minimum field),
so on the spec's scenario — hourly-10 rate card, 3-hour booking, valid
active 20%-capped-at-5 percentage promo — the created booking has
`discount_amount = 0` and `total_amount = 30`, not 5 and 25; the same promo
document run through `validatePromoCode`'s discount computation (which uses
the real `promo_type` path) yields the claimed discount 5. -/
theorem createBooking_promo_fields_dead :
    ((createBooking [] [samplePromo] sampleRateCard 1 0 (3 * msPerHour) 0
        (some "SAVE20")).map
      (fun bb => (bb.base_price, bb.discount_amount, bb.total_amount))).toOption =
      some (30, 0, 30) ∧
    validatePromoCodeDiscount samplePromo 30 = 5 := by
  constructor
  · obtain ⟨b, heq, hbase, hdisc, htot, -⟩ :=
      createBooking_found_promo_zero [] [samplePromo] sampleRateCard 1 0
        (3 * msPerHour) 0 "SAVE20" samplePromo (le_refl 0)
        (by norm_num [msPerHour]) rfl rfl rfl
    have hdur : ((3 * msPerHour - (0 : Int) : ℤ) : ℚ) / (1000 * 60 * 60) = 3 := by
      norm_num [msPerHour]
    have hbase30 : b.base_price = 30 := by
      rw [hbase, hdur, calculateBookingPrice, if_pos (by norm_num)]
      norm_num [sampleRateCard]
    have htot30 : b.total_amount = 30 := by
      rw [htot, hbase30, hdisc]
      norm_num
    rw [heq]
    simp [Except.map, Except.toOption, hbase30, hdisc, htot30]
  · rw [validatePromoCodeDiscount]
    norm_num [samplePromo, ratFieldSet]

/-- C9: a successful extend and a successful check-out leave the persisted
`base_price`, `discount_amount` and `total_amount` unchanged — the monetary
mutations write only `total_price`, `final_price`, `overtime_charge` and
`extensions`, none of which the Booking schema declares, while
`base_price`, `discount_amount` and `total_amount` are schema fields. -/
theorem extend_checkOut_money_frame (bookings : List Booking) (b : Booking)
    (space : ParkingSpace) (ps : Option ParkingSpace) (newEnd now : Int) :
    (∀ b' rest, extendBooking bookings b space newEnd now = .ok (b', rest) →
      b'.base_price = b.base_price ∧ b'.discount_amount = b.discount_amount ∧
      b'.total_amount = b.total_amount) ∧
    (∀ b' c, checkOut b ps now = .ok (b', c) →
      b'.base_price = b.base_price ∧ b'.discount_amount = b.discount_amount ∧
      b'.total_amount = b.total_amount) ∧
    ("total_price" ∉ bookingSchemaFields ∧ "final_price" ∉ bookingSchemaFields ∧
      "overtime_charge" ∉ bookingSchemaFields ∧ "extensions" ∉ bookingSchemaFields) ∧
    ("base_price" ∈ bookingSchemaFields ∧ "discount_amount" ∈ bookingSchemaFields ∧
      "total_amount" ∈ bookingSchemaFields) := by
  refine ⟨?_, ?_, by decide, by decide⟩
  · intro b' rest h
    rw [extendBooking] at h
    split_ifs at h
    simp only [Except.ok.injEq, Prod.mk.injEq] at h
    rw [← h.1]
    exact ⟨rfl, rfl, rfl⟩
  · intro b' c h
    simp only [checkOut] at h
    split_ifs at h <;>
      (simp only [Except.ok.injEq, Prod.mk.injEq] at h
       rw [← h.1]
       exact ⟨rfl, rfl, rfl⟩)

/-- The availability window `09:00-12:00` on day 1 of the spec's scenario. -/
def sampleWindow : SpaceAvailability :=
  { _id := 1, space_id := 1, day_of_week := 1, available_from := "09:00",
    available_to := "12:00", is_available := true }

/-- C7: two availability windows of the same space and day conflict iff
`from1 < to2` and `to1 > from2` over minutes since midnight; with
`09:00-12:00` stored, creating `11:00-14:00` on the same day is rejected as
a conflict while the touching `12:00-14:00` is accepted. -/
theorem availability_overlap_rule :
    (∀ a b c d : String, hasTimeConflict a b c d = true ↔
      (toMinutes a < toMinutes d ∧ toMinutes b > toMinutes c)) ∧
    createAvailability [sampleWindow] 1 1 "11:00" "14:00" none =
      .error (.bizConflict, some sampleWindow) ∧
    createAvailability [sampleWindow] 1 1 "12:00" "14:00" none =
      .ok { _id := 0, space_id := 1, day_of_week := 1, available_from := "12:00",
            available_to := "14:00", is_available := true } := by
  refine ⟨?_, rfl, rfl⟩
  intro a b c d
  simp [hasTimeConflict]

/-- C10: the conflict scan of availability create and update covers every
window of the same space and day regardless of its `is_available` flag: an
overlapping stored window with `is_available = false` still makes the
operation fail with a conflict. -/
theorem availability_conflict_scan_ignores_is_available
    (schedules : List SpaceAvailability) (spaceId d : Nat) (f t : String)
    (w : SpaceAvailability) (hw : w ∈ schedules)
    (hsp : w.space_id = spaceId) (hd : w.day_of_week = d)
    (hconf : hasTimeConflict f t w.available_from w.available_to = true)
    (hrange : availabilityMinutes f < availabilityMinutes t)
    (hunavail : w.is_available = false) :
    (∃ w', createAvailability schedules spaceId d f t none =
      .error (.bizConflict, some w')) ∧
    (∀ s0, schedules.find? (fun s => s._id == s0._id) = some s0 →
      s0.space_id = spaceId → w._id ≠ s0._id →
      ∃ w', updateAvailability schedules s0._id (some d) (some f) (some t) none =
        .error (.bizConflict, some w')) := by
  constructor
  · simp only [createAvailability]
    rw [if_neg (by omega)]
    have hmem : w ∈ schedules.filter
        (fun s => s.space_id == spaceId && s.day_of_week == d) := by
      rw [List.mem_filter]
      exact ⟨hw, by simp [hsp, hd]⟩
    cases hfind : List.find? (fun s => hasTimeConflict f t s.available_from s.available_to)
        (List.filter (fun s => s.space_id == spaceId && s.day_of_week == d) schedules) with
    | none =>
      rw [List.find?_eq_none] at hfind
      exact absurd hconf (by simpa using hfind w hmem)
    | some w' =>
      exact ⟨w', rfl⟩
  · intro s0 hfind0 hs0 hne
    simp only [updateAvailability]
    rw [hfind0]
    simp only [Option.getD_some]
    rw [if_neg (by omega)]
    have hmem : w ∈ schedules.filter
        (fun s => s._id != s0._id && s.space_id == s0.space_id && s.day_of_week == d) := by
      rw [List.mem_filter]
      refine ⟨hw, ?_⟩
      simp only [Bool.and_eq_true, bne_iff_ne, beq_iff_eq]
      exact ⟨⟨hne, hs0 ▸ hsp⟩, hd⟩
    cases hfind : List.find? (fun s => hasTimeConflict f t s.available_from s.available_to)
        (List.filter (fun s => s._id != s0._id && s.space_id == s0.space_id &&
          s.day_of_week == d) schedules) with
    | none =>
      rw [List.find?_eq_none] at hfind
      exact absurd hconf (by simpa using hfind w hmem)
    | some w' =>
      exact ⟨w', rfl⟩

/-- A stored overlapping window whose `is_available` flag is off. -/
def sampleUnavailableWindow : SpaceAvailability :=
  { _id := 1, space_id := 1, day_of_week := 1, available_from := "09:00",
    available_to := "12:00", is_available := false }

/-- Witness for C10: a disabled `09:00-12:00` window still blocks creating
and updating to `11:00-14:00` on the same day. -/
theorem availability_conflict_scan_ignores_is_available_witness :
    (∃ w', createAvailability [sampleUnavailableWindow] 1 1 "11:00" "14:00" none =
      .error (.bizConflict, some w')) ∧
    (∀ s0, [sampleUnavailableWindow].find? (fun s => s._id == s0._id) = some s0 →
      s0.space_id = 1 → sampleUnavailableWindow._id ≠ s0._id →
      ∃ w', updateAvailability [sampleUnavailableWindow] s0._id (some 1) (some "11:00")
          (some "14:00") none = .error (.bizConflict, some w')) :=
  availability_conflict_scan_ignores_is_available [sampleUnavailableWindow] 1 1
    "11:00" "14:00" sampleUnavailableWindow (by simp) rfl rfl rfl (by decide) rfl

/-- The error accumulator of the bulk loop is threaded through untouched:
the result's created list ignores it and the failures are appended after it. -/
lemma bulkAux_acc (ex : List SpaceAvailability) (sp : Nat)
    (l : List BulkScheduleEntry) :
    ∀ (i : Nat) (cr : List SpaceAvailability) (er : List BulkFailure),
      bulkAux ex sp i cr er l =
        ((bulkAux ex sp i cr [] l).1, er ++ (bulkAux ex sp i cr [] l).2) := by
  induction l with
  | nil =>
    intro i cr er
    simp [bulkAux]
  | cons e rest ih =>
    intro i cr er
    cases hchk : bulkEntryCheck ex cr e with
    | some r =>
      simp only [bulkAux, hchk, List.nil_append]
      rw [ih (i + 1) cr (er ++ [({ index := i, reason := r } : BulkFailure)]),
        ih (i + 1) cr [({ index := i, reason := r } : BulkFailure)]]
      simp
    | none =>
      simp only [bulkAux, hchk]
      exact ih (i + 1) (cr ++ [mkBulkWindow sp e]) er

/-- Every entry of the batch ends up accepted or failed, never both or
neither. -/
lemma bulkAux_len (ex : List SpaceAvailability) (sp : Nat)
    (l : List BulkScheduleEntry) :
    ∀ (i : Nat) (cr : List SpaceAvailability) (er : List BulkFailure),
      (bulkAux ex sp i cr er l).1.length + (bulkAux ex sp i cr er l).2.length =
        cr.length + er.length + l.length := by
  induction l with
  | nil =>
    intro i cr er
    simp [bulkAux]
  | cons e rest ih =>
    intro i cr er
    cases hchk : bulkEntryCheck ex cr e with
    | some r =>
      simp only [bulkAux, hchk]
      have h1 := ih (i + 1) cr (er ++ [⟨i, r⟩])
      simp only [List.length_append, List.length_cons, List.length_nil] at h1 ⊢
      omega
    | none =>
      simp only [bulkAux, hchk]
      have h1 := ih (i + 1) (cr ++ [mkBulkWindow sp e]) er
      simp only [List.length_append, List.length_cons, List.length_nil] at h1 ⊢
      omega

/-- Each recorded failure carries the position of its entry in the part of
the batch processed from counter `i` on. -/
lemma bulkAux_err_bound (ex : List SpaceAvailability) (sp : Nat)
    (l : List BulkScheduleEntry) :
    ∀ (i : Nat) (cr : List SpaceAvailability) (x : BulkFailure),
      x ∈ (bulkAux ex sp i cr [] l).2 → i ≤ x.index ∧ x.index < i + l.length := by
  induction l with
  | nil =>
    intro i cr x hx
    simp [bulkAux] at hx
  | cons e rest ih =>
    intro i cr x hx
    cases hchk : bulkEntryCheck ex cr e with
    | some r =>
      simp only [bulkAux, hchk, List.nil_append] at hx
      rw [bulkAux_acc ex sp rest] at hx
      simp only [List.singleton_append, List.mem_cons] at hx
      cases hx with
      | inl h =>
        subst h
        simp only [List.length_cons]
        omega
      | inr h =>
        have := ih (i + 1) cr x h
        simp only [List.length_cons]
        omega
    | none =>
      simp only [bulkAux, hchk] at hx
      have := ih (i + 1) (cr ++ [mkBulkWindow sp e]) x hx
      simp only [List.length_cons]
      omega

/-- The failures are reported in the order the entries were processed. -/
lemma bulkAux_err_sorted (ex : List SpaceAvailability) (sp : Nat)
    (l : List BulkScheduleEntry) :
    ∀ (i : Nat) (cr : List SpaceAvailability),
      List.Pairwise (fun a b => a.index < b.index) (bulkAux ex sp i cr [] l).2 := by
  induction l with
  | nil =>
    intro i cr
    simp [bulkAux]
  | cons e rest ih =>
    intro i cr
    cases hchk : bulkEntryCheck ex cr e with
    | some r =>
      simp only [bulkAux, hchk, List.nil_append]
      rw [bulkAux_acc ex sp rest]
      simp only [List.singleton_append, List.pairwise_cons]
      refine ⟨?_, ih (i + 1) cr⟩
      intro y hy
      have hb := bulkAux_err_bound ex sp rest (i + 1) cr y hy
      show i < y.index
      omega
    | none =>
      simp only [bulkAux, hchk]
      exact ih (i + 1) (cr ++ [mkBulkWindow sp e])

/-- An entry passes the per-entry validation of the bulk loop exactly when
its fields are present, its range is valid, and it conflicts neither with a
pre-existing window of its day nor with a window accepted earlier in the
batch. -/
lemma bulkEntryCheck_none_iff (ex createdAcc : List SpaceAvailability)
    (e : BulkScheduleEntry) :
    bulkEntryCheck ex createdAcc e = none ↔
      ∃ d, e.day_of_week = some d ∧
        strFieldFalsy e.available_from = false ∧
        strFieldFalsy e.available_to = false ∧
        availabilityMinutes (e.available_from.getD "") <
          availabilityMinutes (e.available_to.getD "") ∧
        (∀ w ∈ ex, w.day_of_week = d →
          hasTimeConflict (e.available_from.getD "") (e.available_to.getD "")
            w.available_from w.available_to = false) ∧
        (∀ w ∈ createdAcc, w.day_of_week = d →
          hasTimeConflict (e.available_from.getD "") (e.available_to.getD "")
            w.available_from w.available_to = false) := by
  cases hday : e.day_of_week with
  | none =>
    simp [bulkEntryCheck, hday]
  | some d0 =>
    simp only [bulkEntryCheck, hday]
    by_cases hfal : (strFieldFalsy e.available_from || strFieldFalsy e.available_to) = true
    · rw [if_pos hfal]
      constructor
      · intro h
        simp at h
      · rintro ⟨d, hd', hfa, hfb, -, -, -⟩
        rw [hfa, hfb] at hfal
        simp at hfal
    · rw [if_neg hfal]
      simp only [Bool.or_eq_true, not_or, Bool.not_eq_true] at hfal
      by_cases hran : availabilityMinutes (e.available_from.getD "") ≥
          availabilityMinutes (e.available_to.getD "")
      · rw [if_pos hran]
        constructor
        · intro h
          simp at h
        · rintro ⟨d, hd', -, -, hlt, -, -⟩
          omega
      · rw [if_neg hran]
        cases hfind : List.find? (fun w => w.day_of_week == d0 &&
            hasTimeConflict (e.available_from.getD "") (e.available_to.getD "")
              w.available_from w.available_to) ex with
        | some w0 =>
          constructor
          · intro h
            simp at h
          · rintro ⟨d, hd', -, -, -, hex, -⟩
            injection hd' with hdd
            subst hdd
            have hmem := List.mem_of_find?_eq_some hfind
            have hp := List.find?_some hfind
            simp only [Bool.and_eq_true, beq_iff_eq] at hp
            have := hex w0 hmem hp.1
            rw [this] at hp
            exact absurd hp.2 (by simp)
        | none =>
          by_cases hany : (createdAcc.any fun w => w.day_of_week == d0 &&
              hasTimeConflict (e.available_from.getD "") (e.available_to.getD "")
                w.available_from w.available_to) = true
          · rw [if_pos hany]
            constructor
            · intro h
              simp at h
            · rintro ⟨d, hd', -, -, -, -, hcr⟩
              injection hd' with hdd
              subst hdd
              rw [List.any_eq_true] at hany
              obtain ⟨w0, hw0, hp⟩ := hany
              simp only [Bool.and_eq_true, beq_iff_eq] at hp
              have := hcr w0 hw0 hp.1
              rw [this] at hp
              exact absurd hp.2 (by simp)
          · rw [if_neg hany]
            constructor
            · intro _
              refine ⟨d0, rfl, hfal.1, hfal.2, by omega, ?_, ?_⟩
              · intro w hw hwd
                rw [List.find?_eq_none] at hfind
                have hnp := hfind w hw
                simp only [Bool.and_eq_true, beq_iff_eq, not_and] at hnp
                simpa using hnp hwd
              · intro w hw hwd
                have hany' : (createdAcc.any fun w => w.day_of_week == d0 &&
                    hasTimeConflict (e.available_from.getD "") (e.available_to.getD "")
                      w.available_from w.available_to) = false := by
                  simpa using hany
                rw [List.any_eq_false] at hany'
                have hnp := hany' w hw
                simp only [Bool.and_eq_true, beq_iff_eq, not_and] at hnp
                simpa using hnp hwd
            · intro _
              rfl

/-- C8: bulk availability creation processes a non-empty batch sequentially,
validates each entry against both the pre-existing windows and the windows
accepted earlier in the same batch, keeps going past failed entries, and
reports the created windows, both counts summing to the batch size, and one
failure record per rejected entry carrying its index (in order) and a
specific reason. -/
theorem bulkCreateAvailability_spec (ex : List SpaceAvailability) (sp : Nat)
    (schedules : List BulkScheduleEntry) (hne : schedules ≠ []) :
    ∃ r, bulkCreateAvailability ex sp schedules = .ok r ∧
      r.created_count = r.created.length ∧
      r.failed_count = r.errors.length ∧
      r.created_count + r.failed_count = schedules.length ∧
      (∀ x ∈ r.errors, x.index < schedules.length) ∧
      List.Pairwise (fun a b => a.index < b.index) r.errors ∧
      (∀ e rest reason, schedules = e :: rest →
        bulkEntryCheck ex [] e = some reason →
        r.created = (bulkAux ex sp 1 [] [] rest).1 ∧
        r.errors = ⟨0, reason⟩ :: (bulkAux ex sp 1 [] [] rest).2) ∧
      (∀ createdAcc e, bulkEntryCheck ex createdAcc e = none ↔
        ∃ d, e.day_of_week = some d ∧
          strFieldFalsy e.available_from = false ∧
          strFieldFalsy e.available_to = false ∧
          availabilityMinutes (e.available_from.getD "") <
            availabilityMinutes (e.available_to.getD "") ∧
          (∀ w ∈ ex, w.day_of_week = d →
            hasTimeConflict (e.available_from.getD "") (e.available_to.getD "")
              w.available_from w.available_to = false) ∧
          (∀ w ∈ createdAcc, w.day_of_week = d →
            hasTimeConflict (e.available_from.getD "") (e.available_to.getD "")
              w.available_from w.available_to = false)) := by
  have hne' : ¬ schedules.isEmpty = true := by
    cases schedules with
    | nil => exact absurd rfl hne
    | cons a l => simp
  simp only [bulkCreateAvailability]
  rw [if_neg hne']
  refine ⟨_, rfl, rfl, rfl, ?_, ?_, ?_, ?_, ?_⟩
  · have := bulkAux_len ex sp schedules 0 [] []
    simpa using this
  · intro x hx
    have := bulkAux_err_bound ex sp schedules 0 [] x hx
    omega
  · exact bulkAux_err_sorted ex sp schedules 0 []
  · intro e rest reason hs hchk
    subst hs
    simp only [bulkAux, hchk]
    rw [bulkAux_acc ex sp rest]
    exact ⟨rfl, by simp⟩
  · intro createdAcc e
    exact bulkEntryCheck_none_iff ex createdAcc e

/-- A concrete two-entry batch: the first entry lacks `available_to`, the
second is a valid touching window. -/
def sampleBatch : List BulkScheduleEntry :=
  [{ day_of_week := some 1, available_from := some "10:00", available_to := none,
     is_available := none },
   { day_of_week := some 1, available_from := some "12:00",
     available_to := some "14:00", is_available := none }]

/-- Witness for C8: bulk creation over the stored `09:00-12:00` window with
a concrete partially-failing batch. -/
theorem bulkCreateAvailability_spec_witness :
    ∃ r, bulkCreateAvailability [sampleWindow] 1 sampleBatch = .ok r ∧
      r.created_count = r.created.length ∧
      r.failed_count = r.errors.length ∧
      r.created_count + r.failed_count = sampleBatch.length ∧
      (∀ x ∈ r.errors, x.index < sampleBatch.length) ∧
      List.Pairwise (fun a b => a.index < b.index) r.errors ∧
      (∀ e rest reason, sampleBatch = e :: rest →
        bulkEntryCheck [sampleWindow] [] e = some reason →
        r.created = (bulkAux [sampleWindow] 1 1 [] [] rest).1 ∧
        r.errors = ⟨0, reason⟩ :: (bulkAux [sampleWindow] 1 1 [] [] rest).2) ∧
      (∀ createdAcc e, bulkEntryCheck [sampleWindow] createdAcc e = none ↔
        ∃ d, e.day_of_week = some d ∧
          strFieldFalsy e.available_from = false ∧
          strFieldFalsy e.available_to = false ∧
          availabilityMinutes (e.available_from.getD "") <
            availabilityMinutes (e.available_to.getD "") ∧
          (∀ w ∈ [sampleWindow], w.day_of_week = d →
            hasTimeConflict (e.available_from.getD "") (e.available_to.getD "")
              w.available_from w.available_to = false) ∧
          (∀ w ∈ createdAcc, w.day_of_week = d →
            hasTimeConflict (e.available_from.getD "") (e.available_to.getD "")
              w.available_from w.available_to = false)) :=
  bulkCreateAvailability_spec [sampleWindow] 1 sampleBatch (by decide)

end BnbBackend
